import Mathlib

/-!
Verification of the WebAssembly post-compilation patcher of
tetratelabs/coraza-proxy-wasm (`patchWasm` in `magefile.go`).

The patch step itself (resize the initial memory, rename two imports) is
embedded directly from `magefile.go` lines 412-440.  The binary
decoder/encoder the magefile calls (`binary.DecodeModule` /
`binary.EncodeModule` of the external wabin dependency) is not part of this
repository's sources, so it is modelled from the specification's
description of the container format (magic and version prefix, a sequence
of sections framed by a kind byte and an unsigned LEB128 byte length,
rejection of truncated input and of overlong LEB128 encodings).

Go-specific semantics kept by the embedding:
 * `uint32(initialPages)` is the Go conversion of a signed integer to
   `uint32`: truncation modulo 2^32 (negative inputs wrap around).
 * `mod.MemorySection.Min = ...` dereferences a possibly-nil pointer; the
   nil case is a runtime panic, modelled as the distinguished error
   `PatchErr.nilMemoryPanic` (distinct from an ordinary returned error).
 * the rename `for`/`switch` loop checks only `imp.Name`, never
   `imp.Module`, and rewrites every entry the switch matches.
-/

namespace CorazaPatch

/-- Go's `uint32(x)` conversion of a (64-bit signed) `int`:
truncation modulo 2^32, so negative values wrap around. -/
def goUint32 (x : Int) : Nat := (x % (2 ^ 32 : Int)).toNat

/-- Memory limits: a minimum page count and an optional maximum page
count (wabin `wasm.Memory`, spec §3 "Memory type"). -/
structure Memory where
  min : Nat
  max : Option Nat
deriving DecidableEq, Repr

/-- The description of an import entry: a function type index, a table
type, a memory type, or a global type (spec §3 "Import entry"). -/
inductive ImportDesc where
  | func (typeIndex : Nat)
  | table (refType : Nat) (limits : Memory)
  | mem (limits : Memory)
  | global (valType : Nat) (mutFlag : Nat)
deriving DecidableEq, Repr

/-- An import entry: module-namespace string, field-name string and a
description (wabin `wasm.Import`). -/
structure Import where
  module : String
  name : String
  desc : ImportDesc
deriving DecidableEq, Repr

/-- The decoded module.  The patch step touches only the Import and the
Memory sections, so those two are held in typed form (as in wabin's
`wasm.Module`, whose `MemorySection` is a nullable pointer); every other
section is kept as its kind tag plus opaque payload bytes, which the spec
§4.1 prescribes for sections whose internals are not interpreted. -/
structure Module where
  importSection : List Import
  memorySection : Option Memory
  otherSections : List (Nat × List Nat)
deriving DecidableEq, Repr

/-- The module every decode starts from: no imports, no memory, no other
sections. -/
def emptyModule : Module := ⟨[], none, []⟩

/-- Decode errors, after the spec's taxonomy (§7): truncation is distinct
from a malformed/overlong integer, and container errors (magic, version)
are distinct from section framing errors. -/
inductive DecodeErr where
  | truncated
  | malformedInt
  | badMagic
  | badVersion
  | badSection
deriving DecidableEq, Repr

/-- Errors of the patch step.  The only failure the Go code can produce
there is the nil-pointer dereference panic when the module has no Memory
section. -/
inductive PatchErr where
  | nilMemoryPanic
deriving DecidableEq, Repr

/-- Errors of a whole run: a decode error or a patch error. -/
inductive RunErr where
  | decode (e : DecodeErr)
  | patch (e : PatchErr)
deriving DecidableEq, Repr

/-! ### Decoder

Modelled from the spec: the decoder (`binary.DecodeModule` of the wabin
dependency) is not part of this repository's sources.  Spec §4.1: validate
the magic prefix and the version field, then repeatedly read a section as
a kind byte, an unsigned LEB128 byte length and that many payload bytes;
reject truncated input and overlong LEB128 encodings; keep uninterpreted
sections as opaque payload. -/

/-- Decode an unsigned LEB128 integer, reading at most `maxBytes` bytes:
running out of input is `truncated`, needing more than `maxBytes` bytes is
`malformedInt` (an overlong encoding). -/
def decodeUIntCore : List Nat → Nat → Except DecodeErr (Nat × List Nat)
  | _, 0 => .error .malformedInt
  | [], _ + 1 => .error .truncated
  | b :: rest, maxBytes + 1 =>
    let byte := b % 256
    if byte < 128 then
      .ok (byte, rest)
    else
      match decodeUIntCore rest maxBytes with
      | .error e => .error e
      | .ok (v, rest') => .ok ((byte - 128) + 128 * v, rest')

/-- Decode an unsigned 32-bit LEB128 integer: at most five bytes, and the
decoded value must fit in 32 bits. -/
def decodeU32 (bs : List Nat) : Except DecodeErr (Nat × List Nat) :=
  match decodeUIntCore bs 5 with
  | .error e => .error e
  | .ok (v, rest) => if v < 2 ^ 32 then .ok (v, rest) else .error .malformedInt

/-- Read exactly `n` bytes; fewer available is `truncated`. -/
def readBytes : Nat → List Nat → Except DecodeErr (List Nat × List Nat)
  | 0, bs => .ok ([], bs)
  | _ + 1, [] => .error .truncated
  | n + 1, b :: bs =>
    match readBytes n bs with
    | .error e => .error e
    | .ok (xs, rest) => .ok (b % 256 :: xs, rest)

/-- Decode a name: a byte length followed by that many bytes, read as a
string. -/
def decodeName (bs : List Nat) : Except DecodeErr (String × List Nat) :=
  match decodeU32 bs with
  | .error e => .error e
  | .ok (len, rest) =>
    match readBytes len rest with
    | .error e => .error e
    | .ok (bytes, rest') => .ok (String.mk (bytes.map Char.ofNat), rest')

/-- Decode memory limits: a flag byte (0: minimum only, 1: minimum and
maximum), then the page counts. -/
def decodeLimits (bs : List Nat) : Except DecodeErr (Memory × List Nat) :=
  match bs with
  | [] => .error .truncated
  | flag :: rest =>
    match flag % 256 with
    | 0 =>
      match decodeU32 rest with
      | .error e => .error e
      | .ok (min, rest') => .ok (⟨min, none⟩, rest')
    | 1 =>
      match decodeU32 rest with
      | .error e => .error e
      | .ok (min, rest') =>
        match decodeU32 rest' with
        | .error e => .error e
        | .ok (max, rest'') => .ok (⟨min, some max⟩, rest'')
    | _ => .error .badSection

/-- Decode one import description: a kind byte followed by the
kind-specific payload. -/
def decodeImportDesc (bs : List Nat) : Except DecodeErr (ImportDesc × List Nat) :=
  match bs with
  | [] => .error .truncated
  | kind :: rest =>
    match kind % 256 with
    | 0 =>
      match decodeU32 rest with
      | .error e => .error e
      | .ok (idx, rest') => .ok (.func idx, rest')
    | 1 =>
      match rest with
      | [] => .error .truncated
      | refType :: rest' =>
        match decodeLimits rest' with
        | .error e => .error e
        | .ok (lim, rest'') => .ok (.table (refType % 256) lim, rest'')
    | 2 =>
      match decodeLimits rest with
      | .error e => .error e
      | .ok (lim, rest') => .ok (.mem lim, rest')
    | 3 =>
      match rest with
      | [] | [_] => .error .truncated
      | valType :: mutFlag :: rest' => .ok (.global (valType % 256) (mutFlag % 256), rest')
    | _ => .error .badSection

/-- Decode `n` import entries. -/
def decodeImports : Nat → List Nat → Except DecodeErr (List Import × List Nat)
  | 0, bs => .ok ([], bs)
  | n + 1, bs =>
    match decodeName bs with
    | .error e => .error e
    | .ok (module, rest) =>
      match decodeName rest with
      | .error e => .error e
      | .ok (name, rest') =>
        match decodeImportDesc rest' with
        | .error e => .error e
        | .ok (desc, rest'') =>
          match decodeImports n rest'' with
          | .error e => .error e
          | .ok (imps, rest''') => .ok (⟨module, name, desc⟩ :: imps, rest''')

/-- Decode the Import section payload: an entry count followed by that
many entries, which must consume the whole payload. -/
def decodeImportSec (payload : List Nat) : Except DecodeErr (List Import) :=
  match decodeU32 payload with
  | .error e => .error e
  | .ok (count, rest) =>
    match decodeImports count rest with
    | .error e => .error e
    | .ok (imps, rest') => if rest' = [] then .ok imps else .error .badSection

/-- Decode the Memory section payload: at most one memory is allowed, and
the payload must be fully consumed. -/
def decodeMemorySec (payload : List Nat) : Except DecodeErr (Option Memory) :=
  match decodeU32 payload with
  | .error e => .error e
  | .ok (count, rest) =>
    match count with
    | 0 => if rest = [] then .ok none else .error .badSection
    | 1 =>
      match decodeLimits rest with
      | .error e => .error e
      | .ok (mem, rest') => if rest' = [] then .ok (some mem) else .error .badSection
    | _ => .error .badSection

/-- Decode the section sequence.  `fuel` bounds the number of sections;
every section consumes at least its kind byte, so fuel equal to the byte
count never runs out on well-formed input. -/
def decodeSections : Nat → List Nat → Module → Except DecodeErr Module
  | _, [], m => .ok m
  | 0, _ :: _, _ => .error .badSection
  | fuel + 1, secId :: bs, m =>
    match decodeU32 bs with
    | .error e => .error e
    | .ok (size, rest) =>
      match readBytes size rest with
      | .error e => .error e
      | .ok (payload, rest') =>
        match secId % 256 with
        | 2 =>
          match decodeImportSec payload with
          | .error e => .error e
          | .ok imps => decodeSections fuel rest' { m with importSection := imps }
        | 5 =>
          match decodeMemorySec payload with
          | .error e => .error e
          | .ok mem => decodeSections fuel rest' { m with memorySection := mem }
        | other => decodeSections fuel rest' { m with otherSections := m.otherSections ++ [(other, payload)] }

/-- Decode a whole module: the 4-byte magic prefix, the 4-byte version
field, then the section sequence. -/
def decodeModule (raw : List Nat) : Except DecodeErr Module :=
  if raw.length < 8 then .error .truncated
  else if raw.take 4 ≠ [0x00, 0x61, 0x73, 0x6d] then .error .badMagic
  else if (raw.drop 4).take 4 ≠ [0x01, 0x00, 0x00, 0x00] then .error .badVersion
  else decodeSections raw.length (raw.drop 8) emptyModule

/-! ### Encoder

Modelled from the spec: the encoder (`binary.EncodeModule` of the wabin
dependency) is not part of this repository's sources.  Spec §4.4: re-emit
magic and version, then each section as a kind byte, the re-encoded
payload length and the payload, every integer in minimal-length unsigned
LEB128. -/

/-- Minimal-length unsigned LEB128 encoding. -/
def encodeU32 (n : Nat) : List Nat :=
  if n < 128 then [n] else (n % 128 + 128) :: encodeU32 (n / 128)
decreasing_by exact Nat.div_lt_self (by omega) (by omega)

/-- Encode a name: byte length then the bytes. -/
def encodeName (s : String) : List Nat :=
  encodeU32 s.length ++ s.toList.map Char.toNat

/-- Encode memory limits. -/
def encodeLimits (mem : Memory) : List Nat :=
  match mem.max with
  | none => 0 :: encodeU32 mem.min
  | some max => 1 :: encodeU32 mem.min ++ encodeU32 max

/-- Encode an import description. -/
def encodeImportDesc : ImportDesc → List Nat
  | .func idx => 0 :: encodeU32 idx
  | .table refType lim => 1 :: refType :: encodeLimits lim
  | .mem lim => 2 :: encodeLimits lim
  | .global valType mutFlag => [3, valType, mutFlag]

/-- Encode one import entry. -/
def encodeImport (imp : Import) : List Nat :=
  encodeName imp.module ++ encodeName imp.name ++ encodeImportDesc imp.desc

/-- Frame one section: kind byte, payload length, payload. -/
def encodeSection (secId : Nat) (payload : List Nat) : List Nat :=
  secId :: encodeU32 payload.length ++ payload

/-- Encode a whole module: magic, version, then the sections. -/
def encodeModule (m : Module) : List Nat :=
  [0x00, 0x61, 0x73, 0x6d, 0x01, 0x00, 0x00, 0x00]
    ++ (if m.importSection = [] then []
        else encodeSection 2 (encodeU32 m.importSection.length
              ++ (m.importSection.map encodeImport).flatten))
    ++ (match m.memorySection with
        | none => []
        | some mem => encodeSection 5 (encodeU32 1 ++ encodeLimits mem))
    ++ (m.otherSections.map fun s => encodeSection s.1 s.2).flatten

/-! ### The patch step, from the source (`magefile.go` lines 422-432) -/

/-- The body of the rename loop of `patchWasm` (`magefile.go` 424-432):
a `switch` on `imp.Name` alone; the first true case is taken.
`fd_filestat_get` becomes `fd_fdstat_get` (same module namespace);
`path_filestat_get` becomes module `env`, name
`proxy_get_header_map_value`; anything else is untouched. -/
def renameImport (imp : Import) : Import :=
  if imp.name = "fd_filestat_get" then
    { imp with name := "fd_fdstat_get" }
  else if imp.name = "path_filestat_get" then
    { imp with module := "env", name := "proxy_get_header_map_value" }
  else imp

/-- The whole rename loop: every entry of the Import section passes
through the switch, in section order. -/
def renameImports (m : Module) : Module :=
  { m with importSection := m.importSection.map renameImport }

/-- The resize edit (`magefile.go` 422):
`mod.MemorySection.Min = uint32(initialPages)`.  A nil `MemorySection`
makes the assignment panic; otherwise the minimum is overwritten with the
Go `uint32` conversion of `initialPages` and nothing else changes. -/
def resizeMemory (initialPages : Int) (m : Module) : Except PatchErr Module :=
  match m.memorySection with
  | none => .error .nilMemoryPanic
  | some mem => .ok { m with memorySection := some { mem with min := goUint32 initialPages } }

/-- The in-memory patch step of `patchWasm`: the resize edit followed by
the rename loop. -/
def patchMod (initialPages : Int) (m : Module) : Except PatchErr Module :=
  match resizeMemory initialPages m with
  | .error e => .error e
  | .ok m' => .ok (renameImports m')

/-- The whole run of `patchWasm` on an input buffer: decode, patch,
encode.  Any decode or patch error aborts the run with no output bytes. -/
def patchRun (raw : List Nat) (initialPages : Int) : Except RunErr (List Nat) :=
  match decodeModule raw with
  | .error e => .error (.decode e)
  | .ok m =>
    match patchMod initialPages m with
    | .error e => .error (.patch e)
    | .ok m' => .ok (encodeModule m')

/-! ### Concrete fixtures and helper definitions used by the claims -/

/-- A module with one imported function and a memory of two pages, no
maximum. -/
def mMem2 : Module := ⟨[⟨"env", "a", .func 0⟩], some ⟨2, none⟩, []⟩

/-- A module whose memory declares minimum 1 and maximum 2 pages. -/
def mMem12 : Module := ⟨[], some ⟨1, some 2⟩, []⟩

/-- A module with two duplicate imports matching the first rename rule. -/
def dupModule : Module :=
  ⟨[⟨"wasi_snapshot_preview1", "fd_filestat_get", .func 0⟩,
    ⟨"wasi_snapshot_preview1", "fd_filestat_get", .func 1⟩],
   some ⟨2, none⟩, []⟩

/-- A module with two imports (one matching a rename rule), a memory, and
an opaque extra section. -/
def twoImpModule : Module :=
  ⟨[⟨"wasi_snapshot_preview1", "fd_filestat_get", .func 3⟩,
    ⟨"env", "other", .func 4⟩],
   some ⟨2, none⟩, [(11, [1, 2, 3])]⟩

/-- `twoImpModule` after `patchMod 5`. -/
def twoImpPatched : Module :=
  ⟨[⟨"wasi_snapshot_preview1", "fd_fdstat_get", .func 3⟩,
    ⟨"env", "other", .func 4⟩],
   some ⟨5, none⟩, [(11, [1, 2, 3])]⟩

/-- A module whose only import matches the second rename rule but not the
first one. -/
def c7Module : Module :=
  ⟨[⟨"wasi_snapshot_preview1", "path_filestat_get", .func 1⟩], some ⟨2, none⟩, []⟩

/-- `c7Module` after `patchMod 7`: only the second rule fired. -/
def c7Patched : Module :=
  ⟨[⟨"env", "proxy_get_header_map_value", .func 1⟩], some ⟨7, none⟩, []⟩

/-- A module whose only import matches the first rename rule but not the
second one. -/
def c7bModule : Module :=
  ⟨[⟨"wasi_snapshot_preview1", "fd_filestat_get", .func 2⟩], some ⟨3, none⟩, []⟩

/-- `c7bModule` after `patchMod 9`: only the first rule fired. -/
def c7bPatched : Module :=
  ⟨[⟨"wasi_snapshot_preview1", "fd_fdstat_get", .func 2⟩], some ⟨9, none⟩, []⟩

/-- The second rename rule of the loop in isolation (the
`path_filestat_get` case of the switch), used to state that a rule whose
pattern is absent is skipped while the other rule still applies. -/
def renameOnlyPathFilestat (imp : Import) : Import :=
  if imp.name = "path_filestat_get" then
    { imp with module := "env", name := "proxy_get_header_map_value" }
  else imp

/-- The first rename rule of the loop in isolation (the
`fd_filestat_get` case of the switch), used for the symmetric statement
where the second rule's pattern is the absent one. -/
def renameOnlyFdFilestat (imp : Import) : Import :=
  if imp.name = "fd_filestat_get" then
    { imp with name := "fd_fdstat_get" }
  else imp

/-! ### Helper lemmas -/

/-- The switch of the rename loop never changes an import's description. -/
theorem renameImport_desc (imp : Import) : (renameImport imp).desc = imp.desc := by
  unfold renameImport
  split
  · rfl
  · split <;> rfl

/-- One application of the switch already produces a fixed point: the
replacement names match no rule. -/
theorem renameImport_idem (imp : Import) :
    renameImport (renameImport imp) = renameImport imp := by
  by_cases h1 : imp.name = "fd_filestat_get"
  · simp [renameImport, h1]
  · by_cases h2 : imp.name = "path_filestat_get"
    · simp [renameImport, h1, h2]
    · simp [renameImport, h1, h2]

/-- An import whose name does not match the first pattern passes through
the switch and through the isolated second rule identically. -/
theorem renameImport_eq_onlyPath (imp : Import)
    (h : imp.name ≠ "fd_filestat_get") :
    renameImport imp = renameOnlyPathFilestat imp := by
  unfold renameImport renameOnlyPathFilestat
  rw [if_neg h]

/-- An import whose name does not match the second pattern passes through
the switch and through the isolated first rule identically. -/
theorem renameImport_eq_onlyFd (imp : Import)
    (h : imp.name ≠ "path_filestat_get") :
    renameImport imp = renameOnlyFdFilestat imp := by
  unfold renameImport renameOnlyFdFilestat
  by_cases h1 : imp.name = "fd_filestat_get"
  · rw [if_pos h1, if_pos h1]
  · rw [if_neg h1, if_neg h1, if_neg h]

/-! ### C1 - validation of the resize edit -/

/-- C1 counterexample: the claim says the resize edit fails with an error
when the supplied page count is negative; on a module with a memory
section and the negative count -1 the edit instead succeeds, the count
wrapping to 4294967295 by Go's `uint32` conversion. -/
theorem resizeMemory_negative_ok_cex :
    resizeMemory (-1) mMem2 =
      Except.ok ⟨[⟨"env", "a", .func 0⟩], some ⟨4294967295, none⟩, []⟩ := by
  rfl

/-- C1 (amended): the resize edit validates nothing.  When the module
declares no Memory section the assignment panics (nil-pointer
dereference) rather than returning an ordinary error; for every module
with a memory section the edit succeeds for every caller-supplied count,
negative or above the format's maximum addressable page count included,
storing the count truncated modulo 2^32. -/
theorem resizeMemory_no_validation :
    (∀ (m : Module) (N : Int), m.memorySection = none →
      resizeMemory N m = .error .nilMemoryPanic) ∧
    (∀ (m : Module) (mem : Memory) (N : Int), m.memorySection = some mem →
      resizeMemory N m =
        .ok { m with memorySection := some { mem with min := goUint32 N } }) := by
  constructor
  · intro m N h
    unfold resizeMemory
    rw [h]
  · intro m mem N h
    unfold resizeMemory
    rw [h]

/-- C1 witness: the amended statement evaluated on a module without a
memory section and on a module resized to -1 pages. -/
theorem resizeMemory_no_validation_witness :
    resizeMemory 5 emptyModule = .error .nilMemoryPanic ∧
    resizeMemory (-1) mMem2 =
      .ok { mMem2 with memorySection := some { min := goUint32 (-1), max := none } } :=
  ⟨resizeMemory_no_validation.1 emptyModule 5 rfl,
   resizeMemory_no_validation.2 mMem2 ⟨2, none⟩ (-1) rfl⟩

/-! ### C2 - the maximum page count is never raised -/

/-- C2 counterexample: on a memory with minimum 1 and maximum 2, resizing
the minimum to 5 leaves the maximum at 2 instead of raising it to 5, so
the result violates minimum ≤ maximum. -/
theorem resizeMemory_max_not_raised_cex :
    resizeMemory 5 mMem12 = Except.ok ⟨[], some ⟨5, some 2⟩, []⟩ ∧ ¬ (5 ≤ 2) := by
  constructor
  · rfl
  · decide

/-- C2 (amended): the resize edit sets only the minimum; a declared
maximum is left exactly as it was, so resizing to a value above the
maximum leaves the module with minimum > maximum. -/
theorem resizeMemory_preserves_max (m m' : Module) (mem : Memory) (N : Int)
    (h : m.memorySection = some mem) (h' : resizeMemory N m = .ok m') :
    m'.memorySection = some ⟨goUint32 N, mem.max⟩ := by
  unfold resizeMemory at h'
  rw [h] at h'
  cases h'
  rfl

/-- C2 witness: the amended statement evaluated on the minimum-1 /
maximum-2 memory resized to 5 pages. -/
theorem resizeMemory_preserves_max_witness :
    (⟨[], some ⟨5, some 2⟩, []⟩ : Module).memorySection = some ⟨goUint32 5, some 2⟩ :=
  resizeMemory_preserves_max mMem12 ⟨[], some ⟨5, some 2⟩, []⟩ ⟨1, some 2⟩ 5 rfl rfl

/-! ### C3 - matching consults the field name only -/

/-- C3 counterexample: entries with the same field name but two different
module namespaces are both rewritten by the rename switch; whatever the
single old namespace of the rule is, one of the two entries differs from
it and is rewritten anyway, which the claim forbids. -/
theorem renameImport_ignores_namespace_cex :
    renameImport ⟨"nsA", "fd_filestat_get", .func 0⟩ =
      ⟨"nsA", "fd_fdstat_get", .func 0⟩ ∧
    renameImport ⟨"nsB", "fd_filestat_get", .func 0⟩ =
      ⟨"nsB", "fd_fdstat_get", .func 0⟩ ∧
    ("nsA" : String) ≠ "nsB" := by
  refine ⟨by decide, by decide, by decide⟩

/-- C3 (amended): a rule rewrites an entry exactly when the entry's field
name equals the rule's old field; the module namespace is never
consulted, so an entry whose field name matches is rewritten whatever its
namespace is. -/
theorem renameImport_matches_name_only (imp : Import) :
    (imp.name = "fd_filestat_get" →
      renameImport imp = { imp with name := "fd_fdstat_get" }) ∧
    (imp.name ≠ "fd_filestat_get" → imp.name = "path_filestat_get" →
      renameImport imp = { imp with module := "env", name := "proxy_get_header_map_value" }) ∧
    (imp.name ≠ "fd_filestat_get" → imp.name ≠ "path_filestat_get" →
      renameImport imp = imp) := by
  refine ⟨fun h1 => ?_, fun h1 h2 => ?_, fun h1 h2 => ?_⟩
  · unfold renameImport
    rw [if_pos h1]
  · unfold renameImport
    rw [if_neg h1, if_pos h2]
  · unfold renameImport
    rw [if_neg h1, if_neg h2]

/-- C3 witness: the amended statement evaluated on an entry with
namespace "env" and field `fd_filestat_get`. -/
theorem renameImport_matches_name_only_witness :
    renameImport ⟨"env", "fd_filestat_get", .func 7⟩ =
      { (⟨"env", "fd_filestat_get", .func 7⟩ : Import) with name := "fd_fdstat_get" } :=
  (renameImport_matches_name_only ⟨"env", "fd_filestat_get", .func 7⟩).1 rfl

/-! ### C4 - every matching entry is rewritten, not only the first -/

/-- C4 counterexample: on a module with two imports both matching the
first rule, the rename pass rewrites the second (later) matching entry
too, which the claim says must be left unchanged. -/
theorem renameImports_rewrites_all_cex :
    (renameImports dupModule).importSection[1]? =
      some ⟨"wasi_snapshot_preview1", "fd_fdstat_get", .func 1⟩ ∧
    ("fd_fdstat_get" : String) ≠ "fd_filestat_get" := by
  refine ⟨by decide, by decide⟩

/-- C4 (amended): the rename pass applies the switch to every entry
independently, so every matching entry is rewritten: after the pass no
entry of the Import section carries either old field name. -/
theorem renameImports_rewrites_every_match (m : Module) (imp : Import)
    (h : imp ∈ (renameImports m).importSection) :
    imp.name ≠ "fd_filestat_get" ∧ imp.name ≠ "path_filestat_get" := by
  rcases List.mem_map.mp h with ⟨pre, _, rfl⟩
  by_cases h1 : pre.name = "fd_filestat_get"
  · simp [renameImport, h1]
  · by_cases h2 : pre.name = "path_filestat_get"
    · simp [renameImport, h1, h2]
    · simp [renameImport, h1, h2]

/-- C4 witness: the amended statement evaluated on the second entry of the
duplicate-import module after the pass. -/
theorem renameImports_rewrites_every_match_witness :
    (⟨"wasi_snapshot_preview1", "fd_fdstat_get", .func 1⟩ : Import).name ≠ "fd_filestat_get" ∧
    (⟨"wasi_snapshot_preview1", "fd_fdstat_get", .func 1⟩ : Import).name ≠ "path_filestat_get" :=
  renameImports_rewrites_every_match dupModule
    ⟨"wasi_snapshot_preview1", "fd_fdstat_get", .func 1⟩ (by decide)

/-! ### C5 - the patch step preserves counts, positions, descriptions and
all other sections -/

/-- C5: for every module with at least two imports on which the patch step
succeeds, the Import section keeps its length, the entry at every position
i of the result is the switch's image of the entry at position i of the
input (so no entry moves), every entry's description is unchanged, and
every section other than the Import and Memory sections is untouched. -/
theorem patchMod_preserves_structure (m m' : Module) (N : Int) (i : Nat)
    (h2 : 2 ≤ m.importSection.length)
    (h : patchMod N m = .ok m') :
    m'.importSection.length = m.importSection.length ∧
    m'.importSection[i]? = (m.importSection[i]?).map renameImport ∧
    (m'.importSection[i]?).map Import.desc = (m.importSection[i]?).map Import.desc ∧
    m'.otherSections = m.otherSections := by
  unfold patchMod resizeMemory at h
  cases hm : m.memorySection with
  | none => rw [hm] at h; cases h
  | some mem =>
    rw [hm] at h
    cases h
    refine ⟨?_, ?_, ?_, rfl⟩
    · simp [renameImports]
    · simp [renameImports, List.getElem?_map]
    · cases hi : m.importSection[i]? with
      | none => simp [renameImports, List.getElem?_map, hi]
      | some imp => simp [renameImports, List.getElem?_map, hi, renameImport_desc]

/-- C5 witness: the structure-preservation statement evaluated on a
two-import module with an extra opaque section, at position 0. -/
theorem patchMod_preserves_structure_witness :
    twoImpPatched.importSection.length = twoImpModule.importSection.length ∧
    twoImpPatched.importSection[0]? = (twoImpModule.importSection[0]?).map renameImport ∧
    (twoImpPatched.importSection[0]?).map Import.desc =
      (twoImpModule.importSection[0]?).map Import.desc ∧
    twoImpPatched.otherSections = twoImpModule.otherSections :=
  patchMod_preserves_structure twoImpModule twoImpPatched 5 0 (by decide) rfl

/-! ### C6 - decode failure aborts the run before patch and encode -/

/-- C6: whenever decoding the input buffer fails, the whole run returns
that decode error: the patch and encode steps never execute and no output
bytes are produced. -/
theorem patchRun_decode_error_no_output (raw : List Nat) (N : Int) (e : DecodeErr)
    (h : decodeModule raw = .error e) :
    patchRun raw N = .error (.decode e) := by
  unfold patchRun
  rw [h]

/-- C6 witness: the propagation statement evaluated on a buffer truncated
mid-section, on a buffer with a bad magic prefix, and on a buffer whose
import-section size is an overlong LEB128 integer. -/
theorem patchRun_decode_error_no_output_witness :
    patchRun [0x00, 0x61, 0x73, 0x6d, 1, 0, 0, 0, 2, 5] 2100 =
      .error (.decode .truncated) ∧
    patchRun [1, 2, 3, 4, 5, 6, 7, 8] 2100 = .error (.decode .badMagic) ∧
    patchRun [0x00, 0x61, 0x73, 0x6d, 1, 0, 0, 0, 2, 0x80, 0x80, 0x80, 0x80, 0x80, 1] 2100 =
      .error (.decode .malformedInt) :=
  ⟨patchRun_decode_error_no_output _ 2100 .truncated rfl,
   patchRun_decode_error_no_output _ 2100 .badMagic rfl,
   patchRun_decode_error_no_output _ 2100 .malformedInt rfl⟩

/-! ### C7 - a rule matching no entry is skipped, not an error -/

/-- C7: for each of the two remap rules, on a module with a memory
section none of whose imports matches that rule's pattern, the patch step
still succeeds (the rule is skipped, not a hard error), and its output is
the input module changed only by the resize and by the other rule applied
in isolation. -/
theorem patchMod_missing_rule_skipped :
    (∀ (m : Module) (mem : Memory) (N : Int), m.memorySection = some mem →
      (∀ imp ∈ m.importSection, imp.name ≠ "fd_filestat_get") →
      patchMod N m =
        .ok { m with memorySection := some { mem with min := goUint32 N },
                     importSection := m.importSection.map renameOnlyPathFilestat }) ∧
    (∀ (m : Module) (mem : Memory) (N : Int), m.memorySection = some mem →
      (∀ imp ∈ m.importSection, imp.name ≠ "path_filestat_get") →
      patchMod N m =
        .ok { m with memorySection := some { mem with min := goUint32 N },
                     importSection := m.importSection.map renameOnlyFdFilestat }) := by
  constructor
  · intro m mem N hmem hmiss
    unfold patchMod resizeMemory
    rw [hmem]
    show Except.ok (renameImports _) = _
    unfold renameImports
    have h : m.importSection.map renameImport = m.importSection.map renameOnlyPathFilestat :=
      List.map_congr_left fun imp hi => renameImport_eq_onlyPath imp (hmiss imp hi)
    rw [h]
  · intro m mem N hmem hmiss
    unfold patchMod resizeMemory
    rw [hmem]
    show Except.ok (renameImports _) = _
    unfold renameImports
    have h : m.importSection.map renameImport = m.importSection.map renameOnlyFdFilestat :=
      List.map_congr_left fun imp hi => renameImport_eq_onlyFd imp (hmiss imp hi)
    rw [h]

/-- C7 witness: the skip statement evaluated on a module whose single
entry matches the second rule but not the first, and on a module whose
single entry matches the first rule but not the second. -/
theorem patchMod_missing_rule_skipped_witness :
    patchMod 7 c7Module = .ok c7Patched ∧ patchMod 9 c7bModule = .ok c7bPatched :=
  ⟨patchMod_missing_rule_skipped.1 c7Module ⟨2, none⟩ 7 rfl (by decide),
   patchMod_missing_rule_skipped.2 c7bModule ⟨3, none⟩ 9 rfl (by decide)⟩

/-! ### C8 - the resize edit is idempotent -/

/-- C8: applying the resize edit to the same page count twice in sequence
yields exactly the same result as applying it once (also when the first
application fails on a missing memory section). -/
theorem resizeMemory_idempotent (m : Module) (N : Int) :
    (resizeMemory N m).bind (resizeMemory N) = resizeMemory N m := by
  cases hm : m.memorySection with
  | none => simp [resizeMemory, hm, Except.bind]
  | some mem => simp [resizeMemory, hm, Except.bind]

/-! ### C9 - the run is a deterministic function of its inputs -/

/-- C9: two invocations of the whole run on equal input bytes and equal
patch configuration produce the same result, output bytes and error
included (the remap table is a compiled-in constant, so the configuration
is the page count). -/
theorem patchRun_deterministic (raw₁ raw₂ : List Nat) (N₁ N₂ : Int)
    (hraw : raw₁ = raw₂) (hN : N₁ = N₂) :
    patchRun raw₁ N₁ = patchRun raw₂ N₂ := by
  rw [hraw, hN]

/-- C9 witness: determinism evaluated at a concrete buffer and page
count. -/
theorem patchRun_deterministic_witness :
    patchRun [0, 1, 2] 2100 = patchRun [0, 1, 2] 2100 :=
  patchRun_deterministic [0, 1, 2] [0, 1, 2] 2100 2100 rfl rfl

/-! ### C10 - the whole patch step is idempotent -/

/-- C10: the whole in-memory patch step (resize plus rename pass) applied
twice yields the same result as applied once, because the replacement
names produced by the rules match no rule themselves and the resize
overwrites the minimum with the same value. -/
theorem patchMod_idempotent (m : Module) (N : Int) :
    (patchMod N m).bind (patchMod N) = patchMod N m := by
  cases hm : m.memorySection with
  | none => simp [patchMod, resizeMemory, hm, Except.bind]
  | some mem =>
    simp [patchMod, resizeMemory, renameImports, hm, Except.bind, List.map_map]
    exact fun imp _ => renameImport_idem imp

end CorazaPatch
